import Mathlib

/-!
# Formal model of the climbing-pillar puzzle simulation core

Shallow embedding of the simulation engine of the game: per-face tile
grids (`src/logic/face.rs`), movable-rod toggling (`src/logic/rod.rs`),
the climber state machine (`src/logic/climber.rs`), the pylon allocator
(`src/logic/pillar.rs`) and the win tracker (`src/logic/level.rs`).

Machine `u16` coordinates are modelled as `ℕ` (all reachable values fit
in `u16`, and the single subtraction `i - 1` is guarded by `i > 0` in the
source, so truncated subtraction agrees).  The `u8` pylon counters keep
their wrap-around (`% 256`).  World positions use exact rationals: every
constant in the source is an exact decimal literal and every claim about
positions is robust to `f32` rounding (the quantities compared differ by
whole tile rows, not by ulps).
-/

namespace PillarGame

/-- Compass direction of a pillar face (`FaceDirection` in `data.rs`). -/
inductive FaceDirection where
  | West
  | North
  | East
  | South
deriving DecidableEq

/-- `FaceDirection::get_opposite` in `data.rs`. -/
def FaceDirection.get_opposite : FaceDirection → FaceDirection
  | .West => .East
  | .North => .South
  | .East => .West
  | .South => .North

/-- One cell of a face grid (`TileType`, final revision in
`src/logic/level.rs` / `src/logic/rod.rs`): the `Bool` on the non-`Void`
variants is the occupancy flag. -/
inductive TileType where
  | Void
  | StaticRod (occupied : Bool)
  | MovableRod (occupied : Bool)
deriving DecidableEq

/-- Tile kind in level data (`TileDataType` in `data.rs`). -/
inductive TileDataType where
  | StaticRod
  | MovableRod
deriving DecidableEq

/-- 3-component world vector (`bevy::Vec3`), over exact rationals. -/
structure Vec3 where
  x : ℚ
  y : ℚ
  z : ℚ
deriving DecidableEq

/-- `FaceSize` in `data.rs` (`w`, `h` are `u16`). -/
structure FaceSize where
  w : ℕ
  h : ℕ
deriving DecidableEq

/-- `TilePosition` in `src/logic.rs`. -/
structure TilePosition where
  i : ℕ
  j : ℕ
deriving DecidableEq

/-- `ClimberPosition` in `src/logic/climber.rs`: a face entity id plus a
tile coordinate. -/
structure ClimberPosition where
  face : ℕ
  i : ℕ
  j : ℕ
deriving DecidableEq

/- Constants from `src/assets.rs`. -/

def TILE_SIZE : ℚ := 1/2

def HALF_TILE_SIZE : ℚ := TILE_SIZE / 2

def VISIBLE_ROD_LENGTH : ℚ := 1

def HALF_VISIBLE_ROD_LENGTH : ℚ := VISIBLE_ROD_LENGTH / 2

def CLIMBER_RADIUS : ℚ := 3/20

def CLIMBER_LEVITATE_DISTANCE : ℚ := CLIMBER_RADIUS / 2

/-- Modelled from the spec: `PYLON_HEIGHT` is imported by
`src/logic/climber.rs` from the assets module but the revision of
`assets.rs` in the sources does not define it.  It is a presentation-layer
mesh height (spec §1 treats rendering constants as external); no claim
depends on its value. -/
def PYLON_HEIGHT : ℚ := 1

/-- `Face` in `src/logic/face.rs`.  The `Vec<Vec<TileType>>` grid
(indexed column-first: `tiles[i][j]`) is modelled as a total function;
the source only indexes it after an `is_valid` bounds check or with
coordinates produced by level data. -/
structure Face where
  direction : FaceDirection
  size : FaceSize
  origin : Vec3
  tiles : ℕ → ℕ → TileType

/-- `Face::is_valid`. -/
def Face.is_valid (f : Face) (i j : ℕ) : Bool :=
  decide (i < f.size.w) && decide (j < f.size.h)

/-- `Face::has_ground_on_tile`. -/
def Face.has_ground_on_tile (f : Face) (i j : ℕ) : Bool :=
  if !(f.is_valid i j) then false
  else decide (f.tiles i j ≠ TileType.Void)

/-- `Face::climber_get_pos_from_tile`. -/
def Face.climber_get_pos_from_tile (f : Face) (pos : ClimberPosition) : Vec3 :=
  let factor : ℚ :=
    match f.direction with
    | .West | .South => -1
    | .North | .East => 1
  let y : ℚ := f.origin.y + (pos.j : ℚ) * TILE_SIZE + TILE_SIZE
    + CLIMBER_RADIUS + CLIMBER_LEVITATE_DISTANCE
  let horizontal_delta : ℚ := (pos.i : ℚ) * TILE_SIZE + HALF_TILE_SIZE
  match f.direction with
  | .West | .East =>
      ⟨f.origin.x + factor * HALF_VISIBLE_ROD_LENGTH, y, f.origin.z + horizontal_delta⟩
  | .North | .South =>
      ⟨f.origin.x + horizontal_delta, y, f.origin.z + factor * HALF_VISIBLE_ROD_LENGTH⟩

/-- `Face::get_next_tile_with_ground`. -/
def Face.get_next_tile_with_ground (f : Face) (tile : ClimberPosition) :
    Option ClimberPosition :=
  let next_tile_1 : ClimberPosition := ⟨tile.face, tile.i + 1, tile.j + 1⟩
  if f.has_ground_on_tile next_tile_1.i next_tile_1.j then some next_tile_1
  else if 0 < tile.i then
    let next_tile_2 : ClimberPosition := ⟨tile.face, tile.i - 1, tile.j + 1⟩
    if f.has_ground_on_tile next_tile_2.i next_tile_2.j then some next_tile_2
    else none
  else none

/-- `Face::remove_tile_at` (unchecked write of `Void`). -/
def Face.remove_tile_at (f : Face) (pos : TilePosition) : Face :=
  { f with tiles := fun i j => if i = pos.i ∧ j = pos.j then TileType.Void else f.tiles i j }

/-- `Face::set_tile_at` (unchecked write). -/
def Face.set_tile_at (f : Face) (pos : TilePosition) (tile_type : TileType) : Face :=
  { f with tiles := fun i j => if i = pos.i ∧ j = pos.j then tile_type else f.tiles i j }

/-- `f32::trunc` (round toward zero), on exact rational values. -/
def rustTrunc (q : ℚ) : ℤ :=
  if 0 ≤ q then ⌊q⌋ else ⌈q⌉

/-- `f32::round` (round half away from zero), on exact rational values. -/
def rustRound (q : ℚ) : ℤ :=
  if 0 ≤ q then ⌊q + 1/2⌋ else ⌈q - 1/2⌉

/-- Rust saturating float-to-`u16` cast (`as u16`). -/
def toU16 (z : ℤ) : ℕ :=
  min 65535 z.toNat

/-- `Face::get_tile_coords_from_pos`: vertical component rounded,
horizontal component truncated. -/
def Face.get_tile_coords_from_pos (f : Face) (translation : Vec3) : ℕ × ℕ :=
  let relY : ℚ := translation.y - f.origin.y
  let j : ℕ := toU16 (rustRound (relY / TILE_SIZE))
  let relHoriz : ℚ :=
    match f.direction with
    | .West | .East => translation.z - f.origin.z
    | .North | .South => translation.x - f.origin.x
  let i : ℕ := toU16 (rustTrunc (relHoriz / TILE_SIZE))
  (i, j)

/-- Modelled from the spec: the occupancy flag written by
`Face::set_occupied` / `Face::set_free`, which `src/logic/climber.rs`
calls but whose definitions are absent from the sources.  Spec §3: the
non-`Void` variants carry an occupied flag, set on arrival and cleared on
departure; it mirrors the variant-preserving match used by `spawn_level`
(`src/logic/level.rs`, climber spawn marking). -/
def TileType.set_occupancy : TileType → Bool → TileType
  | .Void, _ => .Void
  | .StaticRod _, b => .StaticRod b
  | .MovableRod _, b => .MovableRod b

/-- Occupancy flag of a tile (spec §3). -/
def TileType.occupied : TileType → Bool
  | .Void => false
  | .StaticRod b => b
  | .MovableRod b => b

/-- Modelled from the spec: `Face::set_occupied`, absent from the
sources (see `TileType.set_occupancy`). -/
def Face.set_occupied (f : Face) (t : ClimberPosition) : Face :=
  { f with tiles := fun i j =>
      if i = t.i ∧ j = t.j then (f.tiles i j).set_occupancy true else f.tiles i j }

/-- Modelled from the spec: `Face::set_free`, absent from the sources
(see `TileType.set_occupancy`). -/
def Face.set_free (f : Face) (t : ClimberPosition) : Face :=
  { f with tiles := fun i j =>
      if i = t.i ∧ j = t.j then (f.tiles i j).set_occupancy false else f.tiles i j }

/-- Modelled from the spec: `Face::get_next_free_tile_with_ground`,
called by `update_climbers` but absent from the sources.  Spec §4.3 gives
the search policy (candidate `(i+1, j+1)`, then `(i-1, j+1)` when
`i > 0`); per the occupancy invariant of spec §3 a candidate must also be
unoccupied, matching the `free` in the name.  It has the shape of
`Face::get_next_tile_with_ground` with the candidate test strengthened. -/
def Face.get_next_free_tile_with_ground (f : Face) (tile : ClimberPosition) :
    Option ClimberPosition :=
  let next_tile_1 : ClimberPosition := ⟨tile.face, tile.i + 1, tile.j + 1⟩
  if f.has_ground_on_tile next_tile_1.i next_tile_1.j
      && !(f.tiles next_tile_1.i next_tile_1.j).occupied then some next_tile_1
  else if 0 < tile.i then
    let next_tile_2 : ClimberPosition := ⟨tile.face, tile.i - 1, tile.j + 1⟩
    if f.has_ground_on_tile next_tile_2.i next_tile_2.j
        && !(f.tiles next_tile_2.i next_tile_2.j).occupied then some next_tile_2
    else none
  else none

/-- `MovableRod` in `src/logic/rod.rs`: entity ids of the two opposite
faces plus the shared tile coordinate. -/
structure MovableRod where
  face : ℕ
  opposite_face : ℕ
  position : TilePosition
deriving DecidableEq

/-- `MovableRod::swap_face`. -/
def MovableRod.swap_face (r : MovableRod) : MovableRod :=
  { r with face := r.opposite_face, opposite_face := r.face }

/-- The state touched by one rod's picking handler: the rod component,
the face store (entity id to `Face`), and the rod animator's tween
progress (`progress() >= 1.0` is the motion-complete signal). -/
structure RodWorld where
  rod : MovableRod
  faces : ℕ → Face
  progress : ℚ

/-- The `PickingEvent::Clicked` arm of `handle_movable_rod_picking_events`
(`src/logic/rod.rs`): when the previous tween has completed, clear the
tile on the current face, set an unoccupied `MovableRod` tile on the
opposite face, swap the rod's face references and start a new tween
(progress restarts at 0, the in-flight state).  The returned `Bool`
reports whether a relocation tween was started. -/
def handle_movable_rod_click (w : RodWorld) : RodWorld × Bool :=
  if 1 ≤ w.progress then
    let face := w.faces w.rod.face
    let faces1 := Function.update w.faces w.rod.face (face.remove_tile_at w.rod.position)
    let opposite_face := faces1 w.rod.opposite_face
    let faces2 := Function.update faces1 w.rod.opposite_face
      (opposite_face.set_tile_at w.rod.position (TileType.MovableRod false))
    (⟨w.rod.swap_face, faces2, 0⟩, true)
  else (w, false)

/-- The collaborator reports tween completion: progress reaches `1.0`. -/
def rod_motion_complete (w : RodWorld) : RodWorld :=
  { w with progress := 1 }

/-- `Pillar` in `src/logic/pillar.rs`: per-direction pools of
not-yet-powered pylon entities (the `HashMap` holds all four keys, as
initialised by `spawn_level`). -/
structure Pillar where
  unpowered_pylons : FaceDirection → List ℕ

/-- `Pillar::get_pylon_from_face`: `Vec::pop` from that direction's pool
(removes and returns the last element) when non-empty. -/
def Pillar.get_pylon_from_face (p : Pillar) (dir : FaceDirection) : Option ℕ × Pillar :=
  let pylons := p.unpowered_pylons dir
  if 0 < pylons.length then
    (pylons.getLast?,
      ⟨Function.update p.unpowered_pylons dir pylons.dropLast⟩)
  else (none, p)

/-- The scan loop of `Pillar::pop_first_available_pylon`. -/
def popFromDirs (p : Pillar) : List FaceDirection → Option ℕ × Pillar
  | [] => (none, p)
  | d :: ds =>
    let pylons := p.unpowered_pylons d
    if 0 < pylons.length then
      (pylons.getLast?,
        ⟨Function.update p.unpowered_pylons d pylons.dropLast⟩)
    else popFromDirs p ds

/-- `Pillar::pop_first_available_pylon`: fixed priority order
`[East, West, South, North]`. -/
def Pillar.pop_first_available_pylon (p : Pillar) : Option ℕ × Pillar :=
  popFromDirs p [.East, .West, .South, .North]

/-- The pylon choice made by `update_climbers` when a climber reaches the
top row (`src/logic/climber.rs`): prefer the pool of the climber's face
direction, else scan all pools in priority order. -/
def pick_pylon (p : Pillar) (dir : FaceDirection) : Option ℕ × Pillar :=
  match p.get_pylon_from_face dir with
  | (some e, p1) => (some e, p1)
  | (none, _) => p.pop_first_available_pylon

/-- `ClimberEvent` in `src/logic/climber.rs`. -/
inductive ClimberEvent where
  | ReachedTop
deriving DecidableEq

/-- `GameState` phases relevant to the core (crate root; `Playing`,
`Won`, `Lost`). -/
inductive GameState where
  | Playing
  | Won
  | Lost
deriving DecidableEq

/-- `LevelCompletion` in `src/logic/level.rs` (both counters are `u8`). -/
structure LevelCompletion where
  pylons_count : ℕ
  powered_pylons_count : ℕ
deriving DecidableEq

/-- `LevelCompletion::is_won`. -/
def LevelCompletion.is_won (lc : LevelCompletion) : Bool :=
  decide (lc.pylons_count ≤ lc.powered_pylons_count)

/-- `climber_event_handler` (`src/logic/level.rs`): for each
`ReachedTop` event, increment `powered_pylons_count` (a `u8`, hence
`% 256`) and, when `is_won`, request the `Won` state.  The returned
`Bool` records whether the `Won` transition was requested while
processing this batch of events. -/
def climber_event_handler : List ClimberEvent → LevelCompletion → LevelCompletion × Bool
  | [], lc => (lc, false)
  | .ReachedTop :: rest, lc =>
      let lc1 : LevelCompletion :=
        { lc with powered_pylons_count := (lc.powered_pylons_count + 1) % 256 }
      let r := climber_event_handler rest lc1
      (r.1, lc1.is_won || r.2)

/-- Powered count over a sequence of ticks: tick `t` delivers `ks[t]`
`ReachedTop` events to `climber_event_handler`.  `p` is the level's
`pylons_count`, `pw` the running `powered_pylons_count`. -/
def runPowered (p : ℕ) : ℕ → List ℕ → ℕ
  | pw, [] => pw
  | pw, k :: ks =>
      runPowered p
        (climber_event_handler (List.replicate k .ReachedTop) ⟨p, pw⟩).1.powered_pylons_count
        ks

/-- Whether the handler requested the `Won` state during tick `t`. -/
def tickWonFlag (p : ℕ) (ks : List ℕ) (t : ℕ) : Bool :=
  (climber_event_handler (List.replicate (ks.getD t 0) .ReachedTop)
    ⟨p, runPowered p 0 (ks.take t)⟩).2

/-- A tick schedule is valid for a level instance when each tick saves at
most the climbers still unsaved (`u` starts at the climber count; each
climber emits `ReachedTop` at most once because `Saved` is terminal). -/
def validTicks : ℕ → List ℕ → Prop
  | _, [] => True
  | u, k :: ks => k ≤ u ∧ validTicks (u - k) ks

/-- `ClimberState` in `src/logic/climber.rs`. -/
inductive ClimberState where
  | Waiting (on_tile : ClimberPosition)
  | Moving (to_tile : ClimberPosition)
  | Falling (on_face : ℕ)
  | Saved
  | Dead
deriving DecidableEq

/-- `Climber` component. -/
structure Climber where
  state : ClimberState
  current_pillar : ℕ
deriving DecidableEq

/-- `spawn_climber` (`src/logic/climber.rs`): a climber starts `Waiting`
on the tile given by its level data. -/
def spawn_climber (face_entity pillar_entity tile_i tile_j : ℕ) : Climber :=
  ⟨.Waiting ⟨face_entity, tile_i, tile_j⟩, pillar_entity⟩

/-- Everything one iteration of the `update_climbers` loop can read or
write for a single climber. -/
structure ClimberTickResult where
  faces : ℕ → Face
  pillars : ℕ → Pillar
  pylons : ℕ → Bool
  translation : Vec3
  climber : Climber
  events : List ClimberEvent
  next_state : Option GameState
  crashed : Bool

/-- One iteration of the `update_climbers` loop (`src/logic/climber.rs`)
for one climber.  `progress` is the climber's tween progress (the
motion-complete signal is `progress >= 1.0`); `pylons` holds each pylon
entity's `powered` flag.  `crashed` records the `.unwrap()` panic on
pylon exhaustion. -/
def update_climber (faces : ℕ → Face) (pillars : ℕ → Pillar) (pylons : ℕ → Bool)
    (progress : ℚ) (translation : Vec3) (c : Climber) : ClimberTickResult :=
  let base : ClimberTickResult := ⟨faces, pillars, pylons, translation, c, [], none, false⟩
  match c.state with
  | .Waiting tile =>
      let face := faces tile.face
      if !(face.has_ground_on_tile tile.i tile.j) then
        { base with climber := { c with state := .Falling tile.face } }
      else
        match face.get_next_free_tile_with_ground tile with
        | some next_tile =>
            let face1 := (face.set_free tile).set_occupied next_tile
            { base with
              faces := Function.update faces tile.face face1,
              climber := { c with state := .Moving next_tile } }
        | none => base
  | .Moving to_tile =>
      if 1 ≤ progress then
        let face := faces to_tile.face
        if face.size.h - 1 ≤ to_tile.j then
          let face1 := face.set_free to_tile
          let faces1 := Function.update faces to_tile.face face1
          let pillar := pillars c.current_pillar
          match pick_pylon pillar face.direction with
          | (some pylon_entity, pillar1) =>
              { faces := faces1,
                pillars := Function.update pillars c.current_pillar pillar1,
                pylons := Function.update pylons pylon_entity true,
                translation :=
                  ⟨0, PYLON_HEIGHT / 2 + CLIMBER_RADIUS + CLIMBER_LEVITATE_DISTANCE, 0⟩,
                climber := { c with state := .Saved },
                events := [.ReachedTop],
                next_state := none,
                crashed := false }
          | (none, _) =>
              { base with faces := faces1, crashed := true }
        else
          { base with climber := { c with state := .Waiting to_tile } }
      else base
  | .Falling on_face =>
      let face := faces on_face
      let coords := face.get_tile_coords_from_pos translation
      let landing :=
        if face.has_ground_on_tile coords.1 coords.2 then
          let landed_on : ClimberPosition := ⟨on_face, coords.1, coords.2⟩
          (Function.update faces on_face (face.set_occupied landed_on),
            face.climber_get_pos_from_tile landed_on,
            ClimberState.Waiting landed_on)
        else
          (faces, ⟨translation.x, translation.y - 1/20, translation.z⟩,
            ClimberState.Falling on_face)
      if landing.2.1.y ≤ 0 then
        { base with
          faces := landing.1,
          translation := landing.2.1,
          climber := { c with state := .Dead },
          next_state := some .Lost }
      else
        { base with
          faces := landing.1,
          translation := landing.2.1,
          climber := { c with state := landing.2.2 } }
  | .Saved => base
  | .Dead => base

/-- The per-climber world state threaded from tick to tick, together
with the signals emitted by the last tick. -/
structure ClimberWorld where
  faces : ℕ → Face
  pillars : ℕ → Pillar
  pylons : ℕ → Bool
  translation : Vec3
  climber : Climber
  last_events : List ClimberEvent
  last_next_state : Option GameState

/-- One fixed-update tick for one climber. -/
def climber_tick (progress : ℚ) (w : ClimberWorld) : ClimberWorld :=
  let r := update_climber w.faces w.pillars w.pylons progress w.translation w.climber
  ⟨r.faces, r.pillars, r.pylons, r.translation, r.climber, r.events, r.next_state⟩

/-- Iterated ticks. -/
def climber_run (progress : ℚ) (w : ClimberWorld) : ℕ → ClimberWorld
  | 0 => w
  | n + 1 => climber_tick progress (climber_run progress w n)

/-- Tile-coordinate well-formedness tracked by claim C5: outside
`Falling` (and the terminal states) the climber's tile is in range for
its face. -/
def Climber.tileOK (faces : ℕ → Face) (c : Climber) : Prop :=
  match c.state with
  | .Waiting t => t.i < (faces t.face).size.w ∧ t.j < (faces t.face).size.h
  | .Moving t => t.i < (faces t.face).size.w ∧ t.j < (faces t.face).size.h
  | _ => True

/-- One placement write of the `spawn_level` tile loop
(`src/logic/level.rs`): an unoccupied rod tile at the placement's
coordinate. -/
def place_tile_write (tiles : ℕ → ℕ → TileType) (t : ℕ × ℕ × TileDataType) :
    ℕ → ℕ → TileType :=
  fun i j =>
    if i = t.1 ∧ j = t.2.1 then
      match t.2.2 with
      | .StaticRod => TileType.StaticRod false
      | .MovableRod => TileType.MovableRod false
    else tiles i j

/-- One climber-spawn occupancy write of `spawn_level`: the
variant-preserving match marking the climber's tile occupied. -/
def mark_climber_write (tiles : ℕ → ℕ → TileType) (cpos : ℕ × ℕ) :
    ℕ → ℕ → TileType :=
  fun i j =>
    if i = cpos.1 ∧ j = cpos.2 then
      match tiles i j with
      | TileType.Void => TileType.Void
      | TileType.StaticRod _ => TileType.StaticRod true
      | TileType.MovableRod _ => TileType.MovableRod true
    else tiles i j

/-- Grid construction of `spawn_level` (`src/logic/level.rs`): start from
an all-`Void` grid, write an unoccupied rod tile for every `(i, j, kind)`
placement of the face's level data, then mark the tile of every climber
spawn `(i, j)` occupied. -/
def spawn_face_tiles (placements : List (ℕ × ℕ × TileDataType))
    (climbers : List (ℕ × ℕ)) : ℕ → ℕ → TileType :=
  climbers.foldl mark_climber_write
    (placements.foldl place_tile_write (fun _ _ => TileType.Void))

/-- All mutations that can touch a given rod's pair of faces in a
consistently-loaded level, between atomic operations: the rod's own click
handler, tween-progress updates by the animation collaborator, climber
occupancy updates (`set_occupied` / `set_free`, variant-preserving,
anywhere), and unchecked tile writes by the toggles of *other* rods,
which never target this rod's coordinate (level data places at most one
rod per face-pair coordinate). -/
inductive RodStep : RodWorld → RodWorld → Prop where
  | click (w : RodWorld) : RodStep w (handle_movable_rod_click w).1
  | advance (w : RodWorld) (q : ℚ) : RodStep w { w with progress := q }
  | occupy (w : RodWorld) (e : ℕ) (t : ClimberPosition) :
      RodStep w { w with faces := Function.update w.faces e ((w.faces e).set_occupied t) }
  | free (w : RodWorld) (e : ℕ) (t : ClimberPosition) :
      RodStep w { w with faces := Function.update w.faces e ((w.faces e).set_free t) }
  | write (w : RodWorld) (e : ℕ) (p : TilePosition) (ty : TileType)
      (hp : p ≠ w.rod.position) :
      RodStep w { w with faces := Function.update w.faces e ((w.faces e).set_tile_at p ty) }

/-- The complementary-cells invariant of a movable rod (spec §3): the
rod's current face holds a `MovableRod` tile at the rod's coordinate and
the opposite face holds `Void` there. -/
def RodInv (w : RodWorld) : Prop :=
  w.rod.face ≠ w.rod.opposite_face ∧
  (∃ b, (w.faces w.rod.face).tiles w.rod.position.i w.rod.position.j
      = TileType.MovableRod b) ∧
  (w.faces w.rod.opposite_face).tiles w.rod.position.i w.rod.position.j
      = TileType.Void

/-- A 5×7 east face with static rods at `(1,3)` and `(4,6)` (the shape
of `level_1` in `data.rs`), used as a concrete evaluation instance. -/
def demoFace : Face :=
  ⟨.East, ⟨5, 7⟩, ⟨0, 0, 0⟩,
    spawn_face_tiles [(1, 3, .StaticRod), (4, 6, .StaticRod)] []⟩

/-- A 5×7 face with no rods at all. -/
def voidFace : Face :=
  ⟨.East, ⟨5, 7⟩, ⟨0, 0, 0⟩, fun _ _ => TileType.Void⟩

/-- A 5×7 west face with a movable rod at `(2,4)` occupied by a climber
spawned on it. -/
def occupiedRodFace : Face :=
  ⟨.West, ⟨5, 7⟩, ⟨0, 0, 0⟩, spawn_face_tiles [(2, 4, .MovableRod)] [(2, 4)]⟩

/-- A 5×7 west face with an unoccupied movable rod at `(2,4)`. -/
def freeRodFace : Face :=
  ⟨.West, ⟨5, 7⟩, ⟨0, 0, 0⟩, spawn_face_tiles [(2, 4, .MovableRod)] []⟩

/-- A face store holding face `a` at entity `0` and `b` everywhere else. -/
def pairFaces (a b : Face) : ℕ → Face :=
  fun e => if e = 0 then a else b

/-- Concrete rod world whose movable rod at `(2,4)` is occupied by a
climber (a state `spawn_level` produces when a climber spawns on a
movable rod). -/
def cex1World : RodWorld :=
  ⟨⟨0, 1, ⟨2, 4⟩⟩, pairFaces occupiedRodFace voidFace, 1⟩

/-- Concrete rod world whose movable rod at `(2,4)` is unoccupied. -/
def demo1World : RodWorld :=
  ⟨⟨0, 1, ⟨2, 4⟩⟩, pairFaces freeRodFace voidFace, 1⟩

/-- A pillar with a single unpowered pylon, pooled under `East`. -/
def demoPillar : Pillar :=
  ⟨fun d => match d with | .East => [10] | _ => []⟩

/-- A pillar with no unpowered pylons left. -/
def emptyPillar : Pillar :=
  ⟨fun _ => []⟩

/-- Concrete one-climber world: a climber falling from height `1/10` in
column 0 of the demo face, which holds static rods at `(1,3)` and
`(4,6)` — ground elsewhere on the face, but never under this climber. -/
def fallWorld : ClimberWorld :=
  ⟨pairFaces demoFace demoFace, fun _ => demoPillar, fun _ => false,
    ⟨0, 1/10, 1/10⟩, ⟨.Falling 0, 0⟩, [], none⟩

/-! ## Theorems -/

/-- Claim C10: `has_ground_on_tile` is `false` whenever `i ≥ w` or
`j ≥ h`, regardless of stored grid content, and for in-range coordinates
it is `false` exactly when the tile is `Void` (and `true` otherwise). -/
theorem has_ground_bounds_spec (f : Face) (i j : ℕ) :
    ((f.size.w ≤ i ∨ f.size.h ≤ j) → f.has_ground_on_tile i j = false) ∧
    (i < f.size.w → j < f.size.h →
      (f.has_ground_on_tile i j = false ↔ f.tiles i j = TileType.Void)) := by
  constructor
  · intro h
    have hv : f.is_valid i j = false := by
      simp only [Face.is_valid, Bool.and_eq_false_iff, decide_eq_false_iff_not, not_lt]
      omega
    simp [Face.has_ground_on_tile, hv]
  · intro hi hj
    have hv : f.is_valid i j = true := by
      simp [Face.is_valid, hi, hj]
    simp [Face.has_ground_on_tile, hv]

/-- Witness for C10 at a concrete face and concrete coordinates. -/
theorem has_ground_bounds_spec_witness :
    demoFace.has_ground_on_tile 7 0 = false ∧
    (demoFace.has_ground_on_tile 0 0 = false ↔ demoFace.tiles 0 0 = TileType.Void) :=
  ⟨(has_ground_bounds_spec demoFace 7 0).1 (by decide),
    (has_ground_bounds_spec demoFace 0 0).2 (by decide) (by decide)⟩

/-- Claim C2: the next-tile search always selects `(i+1, j+1)` when that
candidate has ground (so ties with `(i-1, j+1)` break toward increasing
column); the fallback `(i-1, j+1)` is taken only when `(i+1, j+1)` lacks
ground and `i > 0`; when neither candidate has ground the search returns
no tile. -/
theorem next_tile_search_spec (f : Face) (t : ClimberPosition) :
    (f.has_ground_on_tile (t.i + 1) (t.j + 1) = true →
      f.get_next_tile_with_ground t = some ⟨t.face, t.i + 1, t.j + 1⟩) ∧
    (f.has_ground_on_tile (t.i + 1) (t.j + 1) = false → 0 < t.i →
      f.has_ground_on_tile (t.i - 1) (t.j + 1) = true →
      f.get_next_tile_with_ground t = some ⟨t.face, t.i - 1, t.j + 1⟩) ∧
    (f.has_ground_on_tile (t.i + 1) (t.j + 1) = false →
      (t.i = 0 ∨ f.has_ground_on_tile (t.i - 1) (t.j + 1) = false) →
      f.get_next_tile_with_ground t = none) := by
  refine ⟨?_, ?_, ?_⟩
  · intro h1
    simp [Face.get_next_tile_with_ground, h1]
  · intro h1 hi h2
    simp [Face.get_next_tile_with_ground, h1, hi, h2]
  · intro h1 h2
    rcases h2 with h2 | h2
    · have hi : ¬(0 < t.i) := by omega
      simp [Face.get_next_tile_with_ground, h1, hi]
    · by_cases hi : 0 < t.i
      · simp [Face.get_next_tile_with_ground, h1, hi, h2]
      · simp [Face.get_next_tile_with_ground, h1, hi]

/-- Witness for C2 at a concrete face: from `(3,5)` the search takes the
forward diagonal `(4,6)`; from `(2,2)` it falls back to `(1,3)`; from
`(0,0)` it finds nothing. -/
theorem next_tile_search_spec_witness :
    demoFace.get_next_tile_with_ground ⟨0, 3, 5⟩ = some ⟨0, 4, 6⟩ ∧
    demoFace.get_next_tile_with_ground ⟨0, 2, 2⟩ = some ⟨0, 1, 3⟩ ∧
    demoFace.get_next_tile_with_ground ⟨0, 0, 0⟩ = none :=
  ⟨(next_tile_search_spec demoFace ⟨0, 3, 5⟩).1 (by decide),
    (next_tile_search_spec demoFace ⟨0, 2, 2⟩).2.1 (by decide) (by decide) (by decide),
    (next_tile_search_spec demoFace ⟨0, 0, 0⟩).2.2 (by decide) (Or.inl rfl)⟩

/-- Claim C8: clicking a movable rod whose relocation tween has not yet
completed (`progress < 1`) is a complete no-op: the face store, the rod's
face references and the tween progress are all unchanged, and no new
relocation tween is queued. -/
theorem rod_inflight_noop (w : RodWorld) (h : w.progress < 1) :
    (handle_movable_rod_click w).1 = w ∧ (handle_movable_rod_click w).2 = false := by
  have hn : ¬(1 ≤ w.progress) := not_le.mpr h
  constructor <;> simp [handle_movable_rod_click, hn]

/-- Witness for C8: a rod mid-flight (`progress = 1/2`). -/
theorem rod_inflight_noop_witness :
    (1 : ℚ) / 2 < 1 ∧
      (handle_movable_rod_click { demo1World with progress := 1/2 }).1
        = { demo1World with progress := 1/2 } :=
  ⟨by norm_num,
    (rod_inflight_noop { demo1World with progress := 1/2 } (by norm_num)).1⟩

/-- A non-empty pool pops to one of its own elements (`Vec::pop` returns
the last element). -/
theorem getLast?_mem_of_ne_nil {l : List ℕ} (h : l ≠ []) :
    ∃ e, l.getLast? = some e ∧ e ∈ l :=
  ⟨l.getLast h, List.getLast?_eq_getLast_of_ne_nil h, List.getLast_mem h⟩

/-- Claim C9: the pylon choice prefers the pool of the climber's face
direction whenever it is non-empty; otherwise it scans the pools in the
fixed priority order `[East, West, South, North]` and takes from the
first non-empty one; it yields `none` exactly when every pool is empty. -/
theorem pick_pylon_spec (p : Pillar) (dir : FaceDirection) :
    (p.unpowered_pylons dir ≠ [] →
      ∃ e, (pick_pylon p dir).1 = some e ∧ e ∈ p.unpowered_pylons dir) ∧
    (p.unpowered_pylons dir = [] →
      (p.unpowered_pylons .East ≠ [] →
        ∃ e, (pick_pylon p dir).1 = some e ∧ e ∈ p.unpowered_pylons .East) ∧
      (p.unpowered_pylons .East = [] → p.unpowered_pylons .West ≠ [] →
        ∃ e, (pick_pylon p dir).1 = some e ∧ e ∈ p.unpowered_pylons .West) ∧
      (p.unpowered_pylons .East = [] → p.unpowered_pylons .West = [] →
          p.unpowered_pylons .South ≠ [] →
        ∃ e, (pick_pylon p dir).1 = some e ∧ e ∈ p.unpowered_pylons .South) ∧
      (p.unpowered_pylons .East = [] → p.unpowered_pylons .West = [] →
          p.unpowered_pylons .South = [] → p.unpowered_pylons .North ≠ [] →
        ∃ e, (pick_pylon p dir).1 = some e ∧ e ∈ p.unpowered_pylons .North)) ∧
    ((pick_pylon p dir).1 = none ↔ ∀ d, p.unpowered_pylons d = []) := by
  by_cases hdir : p.unpowered_pylons dir = []
  · have hlen : ¬(0 < (p.unpowered_pylons dir).length) := by simp [hdir]
    have hpick : pick_pylon p dir = p.pop_first_available_pylon := by
      simp [pick_pylon, Pillar.get_pylon_from_face, hlen]
    refine ⟨fun h => absurd hdir h, ?_, ?_⟩
    · intro _
      refine ⟨?_, ?_, ?_, ?_⟩
      · intro hE
        obtain ⟨e, he, hmem⟩ := getLast?_mem_of_ne_nil hE
        refine ⟨e, ?_, hmem⟩
        have hEl : 0 < (p.unpowered_pylons FaceDirection.East).length :=
          List.length_pos.mpr hE
        simp [hpick, Pillar.pop_first_available_pylon, popFromDirs, hEl, he]
      · intro hE hW
        obtain ⟨e, he, hmem⟩ := getLast?_mem_of_ne_nil hW
        refine ⟨e, ?_, hmem⟩
        have hWl : 0 < (p.unpowered_pylons FaceDirection.West).length :=
          List.length_pos.mpr hW
        simp [hpick, Pillar.pop_first_available_pylon, popFromDirs, hE, hWl, he]
      · intro hE hW hS
        obtain ⟨e, he, hmem⟩ := getLast?_mem_of_ne_nil hS
        refine ⟨e, ?_, hmem⟩
        have hSl : 0 < (p.unpowered_pylons FaceDirection.South).length :=
          List.length_pos.mpr hS
        simp [hpick, Pillar.pop_first_available_pylon, popFromDirs, hE, hW, hSl, he]
      · intro hE hW hS hN
        obtain ⟨e, he, hmem⟩ := getLast?_mem_of_ne_nil hN
        refine ⟨e, ?_, hmem⟩
        have hNl : 0 < (p.unpowered_pylons FaceDirection.North).length :=
          List.length_pos.mpr hN
        simp [hpick, Pillar.pop_first_available_pylon, popFromDirs, hE, hW, hS, hNl, he]
    · constructor
      · intro hnone d
        by_contra hd
        have : ∃ e, (pick_pylon p dir).1 = some e := by
          by_cases hE : p.unpowered_pylons FaceDirection.East = []
          · by_cases hW : p.unpowered_pylons FaceDirection.West = []
            · by_cases hS : p.unpowered_pylons FaceDirection.South = []
              · have hN : p.unpowered_pylons FaceDirection.North ≠ [] := by
                  cases d <;> first | exact fun hh => hd hh | exact absurd (by assumption) hd
                obtain ⟨e, he, _⟩ := getLast?_mem_of_ne_nil hN
                exact ⟨e, by
                  have hNl : 0 < (p.unpowered_pylons FaceDirection.North).length :=
                    List.length_pos.mpr hN
                  simp [hpick, Pillar.pop_first_available_pylon, popFromDirs, hE, hW, hS,
                    hNl, he]⟩
              · obtain ⟨e, he, _⟩ := getLast?_mem_of_ne_nil hS
                exact ⟨e, by
                  have hSl : 0 < (p.unpowered_pylons FaceDirection.South).length :=
                    List.length_pos.mpr hS
                  simp [hpick, Pillar.pop_first_available_pylon, popFromDirs, hE, hW,
                    hSl, he]⟩
            · obtain ⟨e, he, _⟩ := getLast?_mem_of_ne_nil hW
              exact ⟨e, by
                have hWl : 0 < (p.unpowered_pylons FaceDirection.West).length :=
                  List.length_pos.mpr hW
                simp [hpick, Pillar.pop_first_available_pylon, popFromDirs, hE, hWl, he]⟩
          · obtain ⟨e, he, _⟩ := getLast?_mem_of_ne_nil hE
            exact ⟨e, by
              have hEl : 0 < (p.unpowered_pylons FaceDirection.East).length :=
                List.length_pos.mpr hE
              simp [hpick, Pillar.pop_first_available_pylon, popFromDirs, hEl, he]⟩
        obtain ⟨e, he⟩ := this
        rw [hnone] at he
        exact Option.noConfusion he
      · intro hall
        have hE := hall FaceDirection.East
        have hW := hall FaceDirection.West
        have hS := hall FaceDirection.South
        have hN := hall FaceDirection.North
        simp [hpick, Pillar.pop_first_available_pylon, popFromDirs, hE, hW, hS, hN]
  · have hlen : 0 < (p.unpowered_pylons dir).length := List.length_pos.mpr hdir
    obtain ⟨e, he, hmem⟩ := getLast?_mem_of_ne_nil hdir
    have hpick : (pick_pylon p dir).1 = some e := by
      simp [pick_pylon, Pillar.get_pylon_from_face, hlen, he]
    refine ⟨fun _ => ⟨e, hpick, hmem⟩, fun h => absurd h hdir, ?_⟩
    constructor
    · intro hnone
      rw [hnone] at hpick
      exact absurd hpick.symm (Option.noConfusion · )
    · intro hall
      exact absurd (hall dir) hdir

/-- Witness for C9 at concrete pillars: the single-pylon pillar yields
its pylon; the empty pillar yields `none`. -/
theorem pick_pylon_spec_witness :
    (∃ e, (pick_pylon demoPillar .East).1 = some e ∧
      e ∈ demoPillar.unpowered_pylons .East) ∧
    ((pick_pylon emptyPillar .East).1 = none ↔
      ∀ d, emptyPillar.unpowered_pylons d = []) :=
  ⟨(pick_pylon_spec demoPillar .East).1 (by decide),
    (pick_pylon_spec emptyPillar .East).2.2⟩

/-- Claim C1 as stated is false: the only precondition it places on the
starting state is that the rod is not in flight, but a toggle always
rewrites the rod's destination cell as an *unoccupied* `MovableRod`, so
starting from a reachable state in which a climber occupies the rod tile
(`MovableRod true`, as `spawn_level` produces when a climber spawns on a
movable rod), toggling twice leaves `MovableRod false` there instead of
restoring the grid. -/
theorem rod_toggle_roundtrip_cex :
    ¬(((handle_movable_rod_click
          (rod_motion_complete (handle_movable_rod_click cex1World).1)).1.faces 0).tiles 2 4
        = (cex1World.faces 0).tiles 2 4) := by
  decide

/-- Claim C1 (amended): for every movable rod whose in-flight flag is
clear, linking two distinct faces whose cells are in the complementary
*unoccupied* state (current face holds `MovableRod false` at the rod's
coordinate, opposite face holds `Void` there), toggling twice with
motion-complete reported in between restores both faces' grids exactly
and restores the rod's current/opposite face references. -/
theorem rod_toggle_roundtrip_amended (w : RodWorld)
    (hfl : 1 ≤ w.progress)
    (hne : w.rod.face ≠ w.rod.opposite_face)
    (hcur : (w.faces w.rod.face).tiles w.rod.position.i w.rod.position.j
      = TileType.MovableRod false)
    (hopp : (w.faces w.rod.opposite_face).tiles w.rod.position.i w.rod.position.j
      = TileType.Void) :
    (handle_movable_rod_click
        (rod_motion_complete (handle_movable_rod_click w).1)).1.rod = w.rod ∧
    ∀ e i j,
      ((handle_movable_rod_click
          (rod_motion_complete (handle_movable_rod_click w).1)).1.faces e).tiles i j
        = (w.faces e).tiles i j := by
  constructor
  · simp [handle_movable_rod_click, rod_motion_complete, hfl, MovableRod.swap_face]
  · intro e i j
    simp only [handle_movable_rod_click, rod_motion_complete, hfl, if_true, le_refl,
      MovableRod.swap_face, Face.remove_tile_at, Face.set_tile_at, Function.update]
    split_ifs <;> simp_all

/-- Witness for the amended C1 at a concrete world: double-toggling the
unoccupied rod at `(2,4)` restores the rod's face references and the
rod's own cell. -/
theorem rod_toggle_roundtrip_amended_witness :
    (handle_movable_rod_click
        (rod_motion_complete (handle_movable_rod_click demo1World).1)).1.rod
      = demo1World.rod ∧
    ((handle_movable_rod_click
        (rod_motion_complete (handle_movable_rod_click demo1World).1)).1.faces 0).tiles 2 4
      = (demo1World.faces 0).tiles 2 4 :=
  ⟨(rod_toggle_roundtrip_amended demo1World (by decide) (by decide)
      (by decide) (by decide)).1,
    (rod_toggle_roundtrip_amended demo1World (by decide) (by decide)
      (by decide) (by decide)).2 0 2 4⟩

/-- Truncating the recovered horizontal offset returns the original
column: the climber anchor sits half a tile past the column origin. -/
theorem horiz_roundtrip (i : ℕ) (hi : i ≤ 65534) :
    toU16 (rustTrunc (((i : ℚ) * TILE_SIZE + HALF_TILE_SIZE) / TILE_SIZE)) = i := by
  have h1 : ((i : ℚ) * TILE_SIZE + HALF_TILE_SIZE) / TILE_SIZE = (i : ℚ) + 1/2 := by
    simp only [HALF_TILE_SIZE, TILE_SIZE]
    ring
  rw [h1, rustTrunc, if_pos (by positivity)]
  have h2 : ⌊(i : ℚ) + 1/2⌋ = (i : ℤ) := by
    rw [Int.floor_eq_iff]
    constructor
    · push_cast
      linarith
    · push_cast
      linarith
  rw [h2]
  unfold toU16
  omega

/-- Rounding the recovered vertical offset lands one row above the
original: the climber anchor sits `1.45` tile heights above the row
origin (`TILE_SIZE + CLIMBER_RADIUS + CLIMBER_LEVITATE_DISTANCE` on top
of `j * TILE_SIZE`). -/
theorem vert_roundtrip (j : ℕ) (hj : j ≤ 65534) :
    toU16 (rustRound (((j : ℚ) * TILE_SIZE + TILE_SIZE + CLIMBER_RADIUS
        + CLIMBER_LEVITATE_DISTANCE) / TILE_SIZE)) = j + 1 := by
  have h1 : ((j : ℚ) * TILE_SIZE + TILE_SIZE + CLIMBER_RADIUS
      + CLIMBER_LEVITATE_DISTANCE) / TILE_SIZE = (j : ℚ) + 29/20 := by
    simp only [CLIMBER_LEVITATE_DISTANCE, CLIMBER_RADIUS, TILE_SIZE]
    ring
  rw [h1, rustRound, if_pos (by positivity)]
  have h2 : ⌊(j : ℚ) + 29/20 + 1/2⌋ = (j : ℤ) + 1 := by
    rw [Int.floor_eq_iff]
    constructor
    · push_cast
      linarith
    · push_cast
      linarith
  rw [h2]
  unfold toU16
  omega

/-- Claim C4 as stated is false: converting tile `(0,0)` of a concrete
face to its climber world position and back yields `(0,1)`, not `(0,0)`
(the vertical component comes back one row high). -/
theorem tile_roundtrip_cex :
    demoFace.get_tile_coords_from_pos
        (demoFace.climber_get_pos_from_tile ⟨0, 0, 0⟩) ≠ (0, 0) := by
  simp only [demoFace, Face.get_tile_coords_from_pos, Face.climber_get_pos_from_tile]
  norm_num [rustRound, rustTrunc, toU16, TILE_SIZE, HALF_TILE_SIZE,
    VISIBLE_ROD_LENGTH, HALF_VISIBLE_ROD_LENGTH, CLIMBER_RADIUS,
    CLIMBER_LEVITATE_DISTANCE, Prod.ext_iff]

/-- Claim C4 (amended): for every face and valid tile `(i,j)`, converting
the tile to a climber world position and converting back recovers the
horizontal component exactly but rounds the vertical component to `j + 1`:
the round trip yields `(i, j + 1)`, one row above the original. -/
theorem tile_roundtrip_amended (f : Face) (e i j : ℕ)
    (hi : i < f.size.w) (hj : j < f.size.h)
    (hw : f.size.w ≤ 65535) (hh : f.size.h ≤ 65535) :
    f.get_tile_coords_from_pos (f.climber_get_pos_from_tile ⟨e, i, j⟩) = (i, j + 1) := by
  have hi65 : i ≤ 65534 := by omega
  have hj65 : j ≤ 65534 := by omega
  cases hd : f.direction <;>
    · simp only [Face.get_tile_coords_from_pos, Face.climber_get_pos_from_tile, hd,
        Prod.mk.injEq]
      constructor
      · rw [show ∀ a b : ℚ, a + b - a = b from fun a b => by ring]
        exact horiz_roundtrip i hi65
      · rw [show f.origin.y + (j : ℚ) * TILE_SIZE + TILE_SIZE + CLIMBER_RADIUS
            + CLIMBER_LEVITATE_DISTANCE - f.origin.y
          = ((j : ℚ) * TILE_SIZE + TILE_SIZE + CLIMBER_RADIUS
            + CLIMBER_LEVITATE_DISTANCE) from by ring]
        exact vert_roundtrip j hj65

/-- Witness for the amended C4: tile `(1,3)` of the concrete face comes
back as `(1,4)`. -/
theorem tile_roundtrip_amended_witness :
    demoFace.get_tile_coords_from_pos
      (demoFace.climber_get_pos_from_tile ⟨0, 1, 3⟩) = (1, 4) :=
  tile_roundtrip_amended demoFace 0 1 3 (by decide) (by decide) (by decide) (by decide)

/-- Evaluating a tick's batch of `ReachedTop` events: the powered count
increases by the batch size and `Won` is requested exactly when the batch
is non-empty and the resulting count reaches the pylon total. -/
theorem handler_replicate (p pw k : ℕ) (hle : pw + k ≤ 255) :
    climber_event_handler (List.replicate k .ReachedTop) ⟨p, pw⟩
      = (⟨p, pw + k⟩, decide (0 < k ∧ p ≤ pw + k)) := by
  induction k generalizing pw with
  | zero => simp [climber_event_handler]
  | succ k ih =>
      have h1 : (pw + 1) % 256 = pw + 1 := Nat.mod_eq_of_lt (by omega)
      rw [List.replicate_succ, climber_event_handler]
      simp only [h1]
      rw [ih (pw + 1) (by omega)]
      simp only [LevelCompletion.is_won]
      have hpk : pw + 1 + k = pw + (k + 1) := by omega
      rw [hpk]
      refine Prod.ext rfl ?_
      simp only
      rw [Bool.eq_iff_iff]
      simp only [Bool.or_eq_true, decide_eq_true_eq]
      omega

/-- Prefix sums of a valid tick schedule never exceed the climber
count. -/
theorem sum_take_le_of_valid :
    ∀ (ks : List ℕ) (u t : ℕ), validTicks u ks → (ks.take t).sum ≤ u := by
  intro ks
  induction ks with
  | nil =>
      intro u t _
      simp
  | cons k ks ih =>
      intro u t hv
      obtain ⟨hk, hv'⟩ := hv
      cases t with
      | zero => simp
      | succ t =>
          have := ih (u - k) t hv'
          simp only [List.take_succ_cons, List.sum_cons]
          omega

/-- The powered count after a run of ticks is the total number of
delivered events. -/
theorem runPowered_eq (p : ℕ) :
    ∀ (ks : List ℕ) (pw : ℕ), pw + ks.sum ≤ 255 →
      runPowered p pw ks = pw + ks.sum := by
  intro ks
  induction ks with
  | nil =>
      intro pw _
      simp [runPowered]
  | cons k ks ih =>
      intro pw hle
      rw [runPowered, handler_replicate p pw k (by simp at hle; omega)]
      simp only
      rw [ih (pw + k) (by simp at hle ⊢; omega)]
      simp
      omega

/-- One more tick adds that tick's event count to the prefix sum. -/
theorem sum_take_succ_eq (ks : List ℕ) :
    ∀ t : ℕ, (ks.take (t + 1)).sum = (ks.take t).sum + ks.getD t 0 := by
  induction ks with
  | nil =>
      intro t
      simp
  | cons k ks ih =>
      intro t
      cases t with
      | zero => simp
      | succ t =>
          simp only [List.take_succ_cons, List.sum_cons, List.getD_cons_succ]
          rw [ih t]
          omega

/-- Claim C3: within one level instance (pylon total `p ≤ 255`, one
pylon per climber so at most `p` climbers save, each at most once), the
powered-pylon count is monotonically non-decreasing tick over tick, never
exceeds the pylon total, and the handler requests the `Won` state on a
tick exactly when that tick makes the powered count reach the total for
the first time — not before (the count is still short) and not again
afterwards (no unsaved climber remains to emit an event). -/
theorem level_completion_spec (p : ℕ) (ks : List ℕ) (hp : p ≤ 255)
    (hv : validTicks p ks) :
    (∀ t, runPowered p 0 (ks.take t) ≤ runPowered p 0 (ks.take (t + 1))) ∧
    (∀ t, runPowered p 0 (ks.take t) ≤ p) ∧
    (∀ t, tickWonFlag p ks t = true ↔
      (runPowered p 0 (ks.take (t + 1)) = p ∧ runPowered p 0 (ks.take t) < p)) := by
  have hsum : ∀ t, (ks.take t).sum ≤ p := fun t => sum_take_le_of_valid ks p t hv
  have hrun : ∀ t, runPowered p 0 (ks.take t) = (ks.take t).sum := by
    intro t
    have := runPowered_eq p (ks.take t) 0 (by have := hsum t; omega)
    omega
  refine ⟨?_, ?_, ?_⟩
  · intro t
    rw [hrun t, hrun (t + 1), sum_take_succ_eq ks t]
    omega
  · intro t
    rw [hrun t]
    exact hsum t
  · intro t
    have hk : (ks.take t).sum + ks.getD t 0 ≤ 255 := by
      have := hsum (t + 1)
      rw [sum_take_succ_eq ks t] at this
      omega
    rw [tickWonFlag, hrun t, handler_replicate p ((ks.take t).sum) (ks.getD t 0) hk]
    simp only [decide_eq_true_eq]
    rw [hrun (t + 1), sum_take_succ_eq ks t]
    have := hsum (t + 1)
    rw [sum_take_succ_eq ks t] at this
    omega

/-- Witness for C3: a two-pylon level whose climbers top out on ticks 0
and 2; the `Won` request fires on tick 2. -/
theorem level_completion_spec_witness :
    2 ≤ 255 ∧ validTicks 2 [1, 0, 1] ∧ tickWonFlag 2 [1, 0, 1] 2 = true :=
  ⟨by norm_num,
    ⟨by norm_num, by norm_num, by norm_num, trivial⟩,
    ((level_completion_spec 2 [1, 0, 1] (by norm_num)
        ⟨by norm_num, by norm_num, by norm_num, trivial⟩).2.2 2).mpr
      (by decide)⟩

/-- Ground implies the coordinate is in range for the face. -/
theorem has_ground_valid (f : Face) (i j : ℕ)
    (h : f.has_ground_on_tile i j = true) : i < f.size.w ∧ j < f.size.h := by
  simp only [Face.has_ground_on_tile] at h
  split_ifs at h with hv
  simp only [Bool.not_eq_true', Bool.not_eq_false] at hv
  simp only [Face.is_valid, Bool.and_eq_true, decide_eq_true_eq] at hv
  exact hv

/-- Occupancy updates keep the face size. -/
theorem set_free_size (f : Face) (t : ClimberPosition) : (f.set_free t).size = f.size :=
  rfl

/-- Occupancy updates keep the face size. -/
theorem set_occupied_size (f : Face) (t : ClimberPosition) :
    (f.set_occupied t).size = f.size :=
  rfl

/-- A successful next-tile search stays on the same face and only
returns a candidate that has ground. -/
theorem get_next_free_some (f : Face) (tile nt : ClimberPosition)
    (h : f.get_next_free_tile_with_ground tile = some nt) :
    nt.face = tile.face ∧ f.has_ground_on_tile nt.i nt.j = true := by
  simp only [Face.get_next_free_tile_with_ground] at h
  split_ifs at h with h1 h2 h3
  · obtain rfl := Option.some.inj h
    simp only [Bool.and_eq_true] at h1
    exact ⟨rfl, h1.1⟩
  · obtain rfl := Option.some.inj h
    simp only [Bool.and_eq_true] at h3
    exact ⟨rfl, h3.1⟩

/-- Claim C5: a climber spawned from consistent level data starts with an
in-range tile, and every per-tick transition of `update_climbers`
preserves in-range tiles for the non-`Falling` states (re-landing from
`Falling` only adopts a coordinate whose `has_ground` check passed, which
forces it in range). -/
theorem climber_tile_bounds_invariant :
    (∀ (faces : ℕ → Face) (fe pe i j : ℕ),
      i < (faces fe).size.w → j < (faces fe).size.h →
      (spawn_climber fe pe i j).tileOK faces) ∧
    (∀ (faces : ℕ → Face) (pillars : ℕ → Pillar) (pylons : ℕ → Bool)
        (progress : ℚ) (translation : Vec3) (c : Climber),
      c.tileOK faces →
      (update_climber faces pillars pylons progress translation c).climber.tileOK
        (update_climber faces pillars pylons progress translation c).faces) := by
  constructor
  · intro faces fe pe i j hi hj
    exact ⟨hi, hj⟩
  · intro faces pillars pylons progress translation c hok
    cases hc : c.state with
    | Waiting tile =>
        by_cases hg : (faces tile.face).has_ground_on_tile tile.i tile.j
        · cases hnext : (faces tile.face).get_next_free_tile_with_ground tile with
          | none =>
              simp only [update_climber, hc, hg, Bool.not_true, Bool.false_eq_true,
                if_false, hnext]
              simpa [Climber.tileOK, hc] using hok
          | some nt =>
              obtain ⟨hface, hground⟩ :=
                get_next_free_some (faces tile.face) tile nt hnext
              obtain ⟨hiw, hjh⟩ := has_ground_valid _ _ _ hground
              simp only [update_climber, hc, hg, Bool.not_true, Bool.false_eq_true,
                if_false, hnext]
              simp only [Climber.tileOK]
              rw [hface, Function.update_same, set_occupied_size, set_free_size]
              exact ⟨hiw, hjh⟩
        · simp only [update_climber, hc, Bool.not_eq_true] at hg ⊢
          simp only [hg, Bool.not_false, if_true]
          simp [Climber.tileOK]
    | Moving to_tile =>
        by_cases hp : 1 ≤ progress
        · by_cases htop : (faces to_tile.face).size.h - 1 ≤ to_tile.j
          · cases hpick :
                pick_pylon (pillars c.current_pillar) (faces to_tile.face).direction with
            | mk pyl pillar1 =>
                cases pyl with
                | some pe =>
                    simp only [update_climber, hc, if_pos hp, if_pos htop, hpick]
                    simp [Climber.tileOK]
                | none =>
                    simp only [update_climber, hc, if_pos hp, if_pos htop, hpick]
                    simp only [Climber.tileOK, hc] at hok ⊢
                    simpa [Function.update_apply, set_free_size] using
                      (by
                        by_cases he : to_tile.face = to_tile.face
                        · exact hok
                        · exact hok)
          · simp only [update_climber, hc, if_pos hp, if_neg htop]
            simp only [Climber.tileOK, hc] at hok ⊢
            exact hok
        · simp only [update_climber, hc, if_neg hp]
          simp only [Climber.tileOK, hc] at hok ⊢
          exact hok
    | Falling on_face =>
        by_cases hg : (faces on_face).has_ground_on_tile
            ((faces on_face).get_tile_coords_from_pos translation).1
            ((faces on_face).get_tile_coords_from_pos translation).2
        · obtain ⟨hiw, hjh⟩ := has_ground_valid _ _ _ hg
          by_cases hy : ((faces on_face).climber_get_pos_from_tile
              ⟨on_face, ((faces on_face).get_tile_coords_from_pos translation).1,
                ((faces on_face).get_tile_coords_from_pos translation).2⟩).y ≤ 0
          · simp only [update_climber, hc, hg, if_true, if_pos hy]
            simp [Climber.tileOK]
          · simp only [update_climber, hc, hg, if_true, if_neg hy]
            simp only [Climber.tileOK, Function.update_same, set_occupied_size]
            exact ⟨hiw, hjh⟩
        · by_cases hy : translation.y - 1/20 ≤ 0
          · simp only [update_climber, hc, hg, Bool.false_eq_true, if_false, if_pos hy]
            simp [Climber.tileOK]
          · simp only [update_climber, hc, hg, Bool.false_eq_true, if_false, if_neg hy]
            simp [Climber.tileOK]
    | Saved =>
        simp only [update_climber, hc]
        simp [Climber.tileOK, hc]
    | Dead =>
        simp only [update_climber, hc]
        simp [Climber.tileOK, hc]

/-- Witness for C5: a concrete spawned climber and one concrete tick. -/
theorem climber_tile_bounds_invariant_witness :
    (spawn_climber 0 0 1 3).tileOK (pairFaces demoFace demoFace) ∧
    ((update_climber (pairFaces demoFace demoFace) (fun _ => demoPillar)
        (fun _ => false) 0 ⟨0, 0, 0⟩ (spawn_climber 0 0 1 3)).climber.tileOK
      (update_climber (pairFaces demoFace demoFace) (fun _ => demoPillar)
        (fun _ => false) 0 ⟨0, 0, 0⟩ (spawn_climber 0 0 1 3)).faces) :=
  ⟨climber_tile_bounds_invariant.1 (pairFaces demoFace demoFace) 0 0 1 3
      (by decide) (by decide),
    climber_tile_bounds_invariant.2 (pairFaces demoFace demoFace) (fun _ => demoPillar)
      (fun _ => false) 0 ⟨0, 0, 0⟩ (spawn_climber 0 0 1 3)
      (climber_tile_bounds_invariant.1 (pairFaces demoFace demoFace) 0 0 1 3
        (by decide) (by decide))⟩

/-- A tick of a falling climber whose ground check at its current
position fails (no ground under the climber this tick): the vertical
position drops by the fixed step `0.05`, and the climber dies (emitting
the `Lost` request) exactly when the new position is at or below the
ground plane. -/
theorem falling_tick_no_ground (progress : ℚ) (w : ClimberWorld) (fe : ℕ)
    (hst : w.climber.state = .Falling fe)
    (hgc : (w.faces fe).has_ground_on_tile
      ((w.faces fe).get_tile_coords_from_pos w.translation).1
      ((w.faces fe).get_tile_coords_from_pos w.translation).2 = false) :
    climber_tick progress w =
      if w.translation.y - 1/20 ≤ 0 then
        { w with
          translation := ⟨w.translation.x, w.translation.y - 1/20, w.translation.z⟩
          climber := { w.climber with state := .Dead }
          last_events := []
          last_next_state := some .Lost }
      else
        { w with
          translation := ⟨w.translation.x, w.translation.y - 1/20, w.translation.z⟩
          climber := { w.climber with state := .Falling fe }
          last_events := []
          last_next_state := none } := by
  by_cases hy : w.translation.y - 1/20 ≤ 0
  · simp only [climber_tick, update_climber, hst, hgc, Bool.false_eq_true, if_false,
      if_pos hy, if_true]
  · simp only [climber_tick, update_climber, hst, hgc, Bool.false_eq_true, if_false,
      if_neg hy]

/-- A dead climber's tick does nothing and emits nothing. -/
theorem dead_tick (progress : ℚ) (w : ClimberWorld)
    (h : w.climber.state = .Dead) :
    climber_tick progress w = { w with last_events := [], last_next_state := none } := by
  simp only [climber_tick, update_climber, h]

/-- Claim C7: a falling climber for which no tick detects ground under
it (the `has_ground` check at the tile coordinates computed from the
climber's actual position fails on every tick it is still falling,
ticks `0..n₀` — the face may well hold ground elsewhere), and whose
per-tick descent first brings its vertical position to `≤ 0` on tick
`n₀` (0-indexed), stays `Falling` without any signal up to then,
transitions to `Dead` with the `Lost` (level-lost) request exactly on
that tick, and afterwards stays `Dead` forever with no further signal:
the `Dead` transition and its level-lost signal happen exactly once. -/
theorem falling_death_spec (w : ClimberWorld) (fe : ℕ) (n0 : ℕ) (progress : ℚ)
    (hst : w.climber.state = .Falling fe)
    (hsig : w.last_next_state = none)
    (hg : ∀ k : ℕ, k ≤ n0 →
      (w.faces fe).has_ground_on_tile
        ((w.faces fe).get_tile_coords_from_pos
          ⟨w.translation.x, w.translation.y - (k : ℚ) * (1/20), w.translation.z⟩).1
        ((w.faces fe).get_tile_coords_from_pos
          ⟨w.translation.x, w.translation.y - (k : ℚ) * (1/20), w.translation.z⟩).2
        = false)
    (hdead : w.translation.y - (n0 + 1 : ℚ) * (1/20) ≤ 0)
    (halive : ∀ m : ℕ, m < n0 → 0 < w.translation.y - (m + 1 : ℚ) * (1/20)) :
    (∀ k ≤ n0, (climber_run progress w k).climber.state = .Falling fe ∧
      (climber_run progress w k).last_next_state = none) ∧
    ((climber_run progress w (n0 + 1)).climber.state = .Dead ∧
      (climber_run progress w (n0 + 1)).last_next_state = some .Lost) ∧
    (∀ k, n0 + 1 < k → (climber_run progress w k).climber.state = .Dead ∧
      (climber_run progress w k).last_next_state = none) := by
  have hfull : ∀ k, k ≤ n0 →
      (climber_run progress w k).climber.state = .Falling fe ∧
      (climber_run progress w k).faces = w.faces ∧
      (climber_run progress w k).translation =
        ⟨w.translation.x, w.translation.y - (k : ℚ) * (1/20), w.translation.z⟩ ∧
      (climber_run progress w k).last_next_state = none := by
    intro k
    induction k with
    | zero =>
        intro _
        refine ⟨hst, rfl, ?_, hsig⟩
        simp only [Nat.cast_zero, zero_mul, sub_zero]
        rfl
    | succ k ih =>
        intro hk1
        obtain ⟨hs, hf, ht, hn⟩ := ih (by omega)
        have hstep := falling_tick_no_ground progress (climber_run progress w k) fe hs
          (by rw [hf, ht]; exact hg k (by omega))
        have hyk : (climber_run progress w k).translation.y - 1/20
            = w.translation.y - ((k : ℚ) + 1) * (1/20) := by
          rw [ht]
          push_cast
          ring
        have halivek : ¬((climber_run progress w k).translation.y - 1/20 ≤ 0) := by
          rw [hyk]
          have := halive k (by omega)
          push_cast at this ⊢
          linarith
        rw [climber_run, hstep, if_neg halivek]
        refine ⟨rfl, hf, ?_, rfl⟩
        simp only [ht]
        refine congrArg (fun y => Vec3.mk w.translation.x y w.translation.z) ?_
        push_cast
        ring
  obtain ⟨hs0, hf0, ht0, hn0⟩ := hfull n0 (le_refl n0)
  have hstep := falling_tick_no_ground progress (climber_run progress w n0) fe hs0
    (by rw [hf0, ht0]; exact hg n0 (le_refl n0))
  have hyn : (climber_run progress w n0).translation.y - 1/20
      = w.translation.y - ((n0 : ℚ) + 1) * (1/20) := by
    rw [ht0]
    push_cast
    ring
  have hdn : (climber_run progress w n0).translation.y - 1/20 ≤ 0 := by
    rw [hyn]
    linarith
  have hdead1 : (climber_run progress w (n0 + 1)).climber.state = .Dead ∧
      (climber_run progress w (n0 + 1)).last_next_state = some .Lost := by
    rw [climber_run, hstep, if_pos hdn]
    exact ⟨rfl, rfl⟩
  refine ⟨?_, hdead1, ?_⟩
  · intro k hk
    obtain ⟨hs, _, _, hn⟩ := hfull k hk
    exact ⟨hs, hn⟩
  · have haux : ∀ m : ℕ, (climber_run progress w (n0 + 2 + m)).climber.state = .Dead ∧
        (climber_run progress w (n0 + 2 + m)).last_next_state = none := by
      intro m
      induction m with
      | zero =>
          have h2 : n0 + 2 = (n0 + 1) + 1 := by omega
          rw [h2, climber_run, dead_tick progress _ hdead1.1]
          exact ⟨hdead1.1, rfl⟩
      | succ m ih =>
          have h2 : n0 + 2 + (m + 1) = (n0 + 2 + m) + 1 := by omega
          rw [h2, climber_run, dead_tick progress _ ih.1]
          exact ⟨ih.1, rfl⟩
    intro k hk
    obtain ⟨m, rfl⟩ : ∃ m, k = n0 + 2 + m := ⟨k - (n0 + 2), by omega⟩
    exact haux m

/-- Witness for C7: the climber of `fallWorld` falls from height `1/10`
down column 0 of a face that holds ground elsewhere (rods at `(1,3)` and
`(4,6)`) but never under the climber, and dies on tick 1 (second tick),
emitting `Lost`. -/
theorem falling_death_spec_witness :
    (climber_run 0 fallWorld 2).climber.state = .Dead ∧
    (climber_run 0 fallWorld 2).last_next_state = some .Lost :=
  (falling_death_spec fallWorld 0 1 0 rfl rfl
      (by
        intro k hk
        interval_cases k <;>
          norm_num [fallWorld, pairFaces, demoFace, Face.has_ground_on_tile,
            Face.is_valid, Face.get_tile_coords_from_pos, rustRound, rustTrunc,
            toU16, TILE_SIZE, spawn_face_tiles, place_tile_write,
            mark_climber_write])
      (by norm_num [fallWorld])
      (by
        intro m hm
        interval_cases m
        norm_num [fallWorld])).2.1

/-- Pointwise view of `set_tile_at`. -/
theorem set_tile_at_tiles (f : Face) (pos : TilePosition) (ty : TileType) (i j : ℕ) :
    (f.set_tile_at pos ty).tiles i j
      = if i = pos.i ∧ j = pos.j then ty else f.tiles i j :=
  rfl

/-- Pointwise view of `remove_tile_at`. -/
theorem remove_tile_at_tiles (f : Face) (pos : TilePosition) (i j : ℕ) :
    (f.remove_tile_at pos).tiles i j
      = if i = pos.i ∧ j = pos.j then TileType.Void else f.tiles i j :=
  rfl

/-- Pointwise view of `set_occupied`. -/
theorem set_occupied_tiles (f : Face) (t : ClimberPosition) (i j : ℕ) :
    (f.set_occupied t).tiles i j
      = if i = t.i ∧ j = t.j then (f.tiles i j).set_occupancy true else f.tiles i j :=
  rfl

/-- Pointwise view of `set_free`. -/
theorem set_free_tiles (f : Face) (t : ClimberPosition) (i j : ℕ) :
    (f.set_free t).tiles i j
      = if i = t.i ∧ j = t.j then (f.tiles i j).set_occupancy false else f.tiles i j :=
  rfl

/-- Changing the occupancy flag keeps a `MovableRod` tile a
`MovableRod` tile. -/
theorem set_occupancy_movable (u : TileType) (b0 c : Bool)
    (h : u = TileType.MovableRod b0) : ∃ b, u.set_occupancy c = TileType.MovableRod b := by
  subst h
  exact ⟨c, rfl⟩

/-- Changing the occupancy flag keeps a `Void` tile `Void`. -/
theorem set_occupancy_void (u : TileType) (c : Bool)
    (h : u = TileType.Void) : u.set_occupancy c = TileType.Void := by
  subst h
  rfl

/-- A coordinate no placement targets stays at the base grid's value. -/
theorem place_fold_miss (pl : List (ℕ × ℕ × TileDataType)) :
    ∀ (base : ℕ → ℕ → TileType) (i j : ℕ),
      (∀ t ∈ pl, ¬(i = t.1 ∧ j = t.2.1)) →
      (pl.foldl place_tile_write base) i j = base i j := by
  induction pl with
  | nil =>
      intro base i j _
      rfl
  | cons t ts ih =>
      intro base i j h
      rw [List.foldl_cons, ih (place_tile_write base t) i j
        (fun t' ht' => h t' (List.mem_cons_of_mem t ht'))]
      simp only [place_tile_write]
      rw [if_neg (h t (List.mem_cons_self t ts))]

/-- A coordinate targeted by at least one placement, all of whose
placements are movable rods, ends as an unoccupied `MovableRod`. -/
theorem place_fold_movable (pl : List (ℕ × ℕ × TileDataType)) :
    ∀ (base : ℕ → ℕ → TileType) (i j : ℕ),
      (∀ t ∈ pl, i = t.1 → j = t.2.1 → t.2.2 = TileDataType.MovableRod) →
      (∃ t ∈ pl, i = t.1 ∧ j = t.2.1) →
      (pl.foldl place_tile_write base) i j = TileType.MovableRod false := by
  induction pl with
  | nil =>
      intro base i j _ hex
      simp at hex
  | cons t ts ih =>
      intro base i j hall hex
      by_cases hrest : ∃ t' ∈ ts, i = t'.1 ∧ j = t'.2.1
      · exact List.foldl_cons _ _ ▸
          ih (place_tile_write base t) i j
            (fun t' ht' => hall t' (List.mem_cons_of_mem t ht')) hrest
      · obtain ⟨t0, ht0, hit⟩ := hex
        have ht0h : t0 = t := by
          rcases List.mem_cons.mp ht0 with h | h
          · exact h
          · exact absurd ⟨t0, h, hit⟩ hrest
        subst ht0h
        rw [List.foldl_cons, place_fold_miss ts (place_tile_write base t0) i j
          (fun t' ht' hit' => hrest ⟨t', ht', hit'⟩)]
        simp only [place_tile_write]
        rw [if_pos hit, hall t0 (List.mem_cons_self t0 ts) hit.1 hit.2]

/-- Climber-spawn occupancy marking keeps a `MovableRod` coordinate a
`MovableRod` coordinate. -/
theorem mark_fold_movable (cl : List (ℕ × ℕ)) :
    ∀ (base : ℕ → ℕ → TileType) (i j : ℕ),
      (∃ b, base i j = TileType.MovableRod b) →
      ∃ b, (cl.foldl mark_climber_write base) i j = TileType.MovableRod b := by
  induction cl with
  | nil =>
      intro base i j h
      exact h
  | cons c cs ih =>
      intro base i j h
      obtain ⟨b, hb⟩ := h
      rw [List.foldl_cons]
      refine ih (mark_climber_write base c) i j ?_
      simp only [mark_climber_write]
      by_cases hit : i = c.1 ∧ j = c.2
      · rw [if_pos hit, hb]
        exact ⟨true, rfl⟩
      · rw [if_neg hit]
        exact ⟨b, hb⟩

/-- Climber-spawn occupancy marking keeps a `Void` coordinate `Void`. -/
theorem mark_fold_void (cl : List (ℕ × ℕ)) :
    ∀ (base : ℕ → ℕ → TileType) (i j : ℕ),
      base i j = TileType.Void →
      (cl.foldl mark_climber_write base) i j = TileType.Void := by
  induction cl with
  | nil =>
      intro base i j h
      exact h
  | cons c cs ih =>
      intro base i j h
      rw [List.foldl_cons]
      refine ih (mark_climber_write base c) i j ?_
      simp only [mark_climber_write]
      by_cases hit : i = c.1 ∧ j = c.2
      · rw [if_pos hit, h]
      · rw [if_neg hit]
        exact h

/-- Every step of `RodStep` preserves the complementary-cells
invariant. -/
theorem rodstep_preserves_inv (w w' : RodWorld) (hs : RodStep w w')
    (hinv : RodInv w) : RodInv w' := by
  obtain ⟨hne, ⟨b, hcur⟩, hopp⟩ := hinv
  cases hs with
  | click =>
      by_cases hp : 1 ≤ w.progress
      · simp only [handle_movable_rod_click, hp, if_true]
        refine ⟨fun hh => hne hh.symm, ⟨false, ?_⟩, ?_⟩
        · simp [MovableRod.swap_face, Function.update_same, set_tile_at_tiles]
        · simp only [MovableRod.swap_face]
          rw [Function.update_noteq hne, Function.update_same]
          simp [remove_tile_at_tiles]
      · simp only [handle_movable_rod_click, hp, if_false]
        exact ⟨hne, ⟨b, hcur⟩, hopp⟩
  | advance q =>
      exact ⟨hne, ⟨b, hcur⟩, hopp⟩
  | occupy e t =>
      refine ⟨hne, ?_, ?_⟩
      · simp only [Function.update_apply]
        split_ifs with he
        · simp only [set_occupied_tiles]
          split_ifs with hij
          · exact set_occupancy_movable _ b true (by rw [← he]; exact hcur)
          · exact ⟨b, by rw [← he]; exact hcur⟩
        · exact ⟨b, hcur⟩
      · simp only [Function.update_apply]
        split_ifs with he
        · simp only [set_occupied_tiles]
          split_ifs with hij
          · exact set_occupancy_void _ true (by rw [← he]; exact hopp)
          · rw [← he]
            exact hopp
        · exact hopp
  | free e t =>
      refine ⟨hne, ?_, ?_⟩
      · simp only [Function.update_apply]
        split_ifs with he
        · simp only [set_free_tiles]
          split_ifs with hij
          · exact set_occupancy_movable _ b false (by rw [← he]; exact hcur)
          · exact ⟨b, by rw [← he]; exact hcur⟩
        · exact ⟨b, hcur⟩
      · simp only [Function.update_apply]
        split_ifs with he
        · simp only [set_free_tiles]
          split_ifs with hij
          · exact set_occupancy_void _ false (by rw [← he]; exact hopp)
          · rw [← he]
            exact hopp
        · exact hopp
  | write e p ty hp =>
      have hmiss : ¬(w.rod.position.i = p.i ∧ w.rod.position.j = p.j) := by
        rintro ⟨h1, h2⟩
        refine hp ?_
        cases p
        cases hw : w.rod.position
        simp_all
      refine ⟨hne, ?_, ?_⟩
      · simp only [Function.update_apply]
        split_ifs with he
        · simp only [set_tile_at_tiles]
          rw [if_neg hmiss, ← he]
          exact ⟨b, hcur⟩
        · exact ⟨b, hcur⟩
      · simp only [Function.update_apply]
        split_ifs with he
        · simp only [set_tile_at_tiles]
          rw [if_neg hmiss, ← he]
          exact hopp
        · exact hopp

/-- Claim C6: for a movable rod linking coordinate `(p.i, p.j)` of two
distinct faces spawned from consistent level data (the rod's face places
only movable-rod data at that coordinate and places at least one, the
opposite face places nothing there), every state reachable through the
atomic rod-toggle operation, tween-progress updates, climber occupancy
updates, and tile writes of other rods (which never target this rod's
coordinate) satisfies the complementary invariant: the rod's current face
holds `MovableRod` at the coordinate and the opposite face holds `Void`
there. -/
theorem rod_complementary_invariant (eA eB : ℕ) (p : TilePosition) (q : ℚ)
    (faces0 : ℕ → Face)
    (plA plB : List (ℕ × ℕ × TileDataType)) (clA clB : List (ℕ × ℕ))
    (hne : eA ≠ eB)
    (htA : (faces0 eA).tiles = spawn_face_tiles plA clA)
    (htB : (faces0 eB).tiles = spawn_face_tiles plB clB)
    (hAmov : ∃ t ∈ plA, p.i = t.1 ∧ p.j = t.2.1)
    (hAonly : ∀ t ∈ plA, p.i = t.1 → p.j = t.2.1 → t.2.2 = TileDataType.MovableRod)
    (hBnone : ∀ t ∈ plB, ¬(p.i = t.1 ∧ p.j = t.2.1))
    (w : RodWorld)
    (hreach : Relation.ReflTransGen RodStep ⟨⟨eA, eB, p⟩, faces0, q⟩ w) :
    RodInv w := by
  have hinit : RodInv ⟨⟨eA, eB, p⟩, faces0, q⟩ := by
    refine ⟨hne, ?_, ?_⟩
    · show ∃ b, (faces0 eA).tiles p.i p.j = TileType.MovableRod b
      rw [htA]
      exact mark_fold_movable clA _ p.i p.j
        ⟨false, place_fold_movable plA _ p.i p.j hAonly hAmov⟩
    · show (faces0 eB).tiles p.i p.j = TileType.Void
      rw [htB]
      exact mark_fold_void clB _ p.i p.j
        (place_fold_miss plB _ p.i p.j hBnone)
  induction hreach with
  | refl => exact hinit
  | tail hsteps hstep ih => exact rodstep_preserves_inv _ _ hstep ih

/-- Witness for C6: the concrete spawned rod world (unoccupied rod at
`(2,4)` on face 0, `Void` mirror on face 1) satisfies the invariant. -/
theorem rod_complementary_invariant_witness :
    RodInv ⟨⟨0, 1, ⟨2, 4⟩⟩, pairFaces freeRodFace voidFace, 1⟩ :=
  rod_complementary_invariant 0 1 ⟨2, 4⟩ 1 (pairFaces freeRodFace voidFace)
    [(2, 4, .MovableRod)] [] [] []
    (by decide) rfl rfl (by decide) (by decide) (by decide)
    _ Relation.ReflTransGen.refl

end PillarGame
